import Mathlib

/-!
Verification of the nvda-vision recognition pipeline.

Shallow embedding of the Python sources under
`src/addon/globalPlugins/nvdaVision/`: the data schemas
(`schemas/ui_element.py`, `schemas/recognition_result.py`), the result
processor (`services/result_processor.py`), the inference orchestrator
(`services/vision_engine.py`), the SQLite-backed cache
(`infrastructure/cache_database.py`, `services/cache_manager.py`) and the
recognition controller (`core/recognition_controller.py`).

Conventions of the embedding:
* Python `datetime` values are modelled as `Nat` timestamps counted in
  seconds; every operation that calls `datetime.now()` internally takes the
  current time as an explicit argument.
* Python floats (confidence scores, inference times) are modelled as `Rat`.
* Python exceptions are modelled with `Except PyErr`; code that catches and
  swallows exceptions is modelled by the corresponding `match` on the error.
* SQLite tables are lists of row structures; autoincrement ids are explicit
  counters in the database state.
-/

namespace NvdaVision

/-- Python exception kinds that the embedded code can raise. -/
inductive PyErr where
  | attributeError
  | valueError
  | typeError
  deriving DecidableEq, Repr

/-- `constants.CACHE_TTL` (seconds). -/
def CACHE_TTL : Nat := 300

/-- `constants.LOW_CONFIDENCE_THRESHOLD` (= `MIN_CONFIDENCE_THRESHOLD`). -/
def LOW_CONFIDENCE_THRESHOLD : Rat := mkRat 7 10

/-- `constants.RecognitionStatus`. -/
inductive RecognitionStatus where
  | SUCCESS
  | PARTIAL_SUCCESS
  | FAILURE
  | TIMEOUT
  | CACHE_HIT
  deriving DecidableEq, Repr

/-- Enum member name, as produced by Python's `status.name`. -/
def RecognitionStatus.pyName : RecognitionStatus → String
  | .SUCCESS => "SUCCESS"
  | .PARTIAL_SUCCESS => "PARTIAL_SUCCESS"
  | .FAILURE => "FAILURE"
  | .TIMEOUT => "TIMEOUT"
  | .CACHE_HIT => "CACHE_HIT"

/-- `RecognitionStatus[name]` guarded by `hasattr`, as used in
`RecognitionResult.from_dict`. -/
def RecognitionStatus.ofName : String → Option RecognitionStatus
  | "SUCCESS" => some .SUCCESS
  | "PARTIAL_SUCCESS" => some .PARTIAL_SUCCESS
  | "FAILURE" => some .FAILURE
  | "TIMEOUT" => some .TIMEOUT
  | "CACHE_HIT" => some .CACHE_HIT
  | _ => none

/-- `constants.InferenceSource`.  `CACHE` is the member that denotes the
cache tier (mapped to the phrase "from cache" by
`ResultProcessor.generate_result_summary`). -/
inductive InferenceSource where
  | LOCAL_GPU
  | LOCAL_CPU
  | CLOUD_API
  | CACHE
  deriving DecidableEq, Repr

/-- Enum member name, as produced by Python's `source.name`. -/
def InferenceSource.pyName : InferenceSource → String
  | .LOCAL_GPU => "LOCAL_GPU"
  | .LOCAL_CPU => "LOCAL_CPU"
  | .CLOUD_API => "CLOUD_API"
  | .CACHE => "CACHE"

/-- `InferenceSource[name]` guarded by `hasattr`, as used in
`RecognitionResult.from_dict`. -/
def InferenceSource.ofName : String → Option InferenceSource
  | "LOCAL_GPU" => some .LOCAL_GPU
  | "LOCAL_CPU" => some .LOCAL_CPU
  | "CLOUD_API" => some .CLOUD_API
  | "CACHE" => some .CACHE
  | _ => none

/-- `schemas/ui_element.py` dataclass `UIElement`.  These are exactly the
fields the dataclass declares; in particular it declares neither an `id`
field nor an `attributes` field (which other modules of the repository
assume — see the C4/C5 theorems below). -/
structure UIElement where
  element_type : String
  text : String
  bbox : List Int
  confidence : Rat
  app_name : Option String := none
  parent_id : Option String := none
  actionable : Bool := true
  created_at : Nat := 0
  deriving DecidableEq, Repr

/-- `bbox[0]`; the source always indexes a bounding box of length 4
(enforced by `UIElement.__post_init__`), modelled with `getD`. -/
def UIElement.bx1 (e : UIElement) : Int := e.bbox.getD 0 0

/-- `bbox[1]`. -/
def UIElement.by1 (e : UIElement) : Int := e.bbox.getD 1 0

/-- `bbox[2]`. -/
def UIElement.bx2 (e : UIElement) : Int := e.bbox.getD 2 0

/-- `bbox[3]`. -/
def UIElement.by2 (e : UIElement) : Int := e.bbox.getD 3 0

/-- The validation performed by `UIElement.__post_init__`: confidence in
`[0, 1]`, bounding box of length 4 with strictly ordered corners. -/
def UIElement.validB (e : UIElement) : Bool :=
  (0 ≤ e.confidence) && (e.confidence ≤ 1) && (e.bbox.length == 4)
    && (e.bx1 < e.bx2) && (e.by1 < e.by2)

/-- The dictionary produced by `UIElement.to_dict` (the payload that is
JSON-serialised into the cache). -/
structure ElemDict where
  etype : String
  text : String
  bbox : List Int
  confidence : Rat
  app_name : Option String
  parent_id : Option String
  actionable : Bool
  created_at : Nat
  deriving DecidableEq, Repr

/-- `UIElement.to_dict`. -/
def UIElement.to_dict (e : UIElement) : ElemDict :=
  { etype := e.element_type
    text := e.text
    bbox := e.bbox
    confidence := e.confidence
    app_name := e.app_name
    parent_id := e.parent_id
    actionable := e.actionable
    created_at := e.created_at }

/-- `UIElement.from_dict`: reconstructs the dataclass, whose
`__post_init__` raises `ValueError` on out-of-range confidence or a
malformed bounding box. -/
def UIElement.from_dict (d : ElemDict) : Except PyErr UIElement :=
  let e : UIElement :=
    { element_type := d.etype
      text := d.text
      bbox := d.bbox
      confidence := d.confidence
      app_name := d.app_name
      parent_id := d.parent_id
      actionable := d.actionable
      created_at := d.created_at }
  if ¬ (0 ≤ e.confidence ∧ e.confidence ≤ 1) then .error .valueError
  else if e.bbox.length ≠ 4 then .error .valueError
  else if e.bx2 ≤ e.bx1 ∨ e.by2 ≤ e.by1 then .error .valueError
  else .ok e

/-- Fixed stand-in for `str(uuid.uuid4())`: the source draws a fresh random
UUID, which the deterministic model replaces by a constant (no claim
depends on the actual value). -/
def uuid4Model : String := "00000000-0000-4000-8000-000000000000"

/-- The dictionary produced by `RecognitionResult.to_dict` (serialised to
`result_json` by the cache database). -/
structure ResultDict where
  id : String
  screenshot_hash : String
  elements : List ElemDict
  model_name : String
  model_version : Option String
  inference_time : Rat
  status : String
  source : String
  created_at : Nat
  expires_at : Option Nat
  element_count : Nat
  average_confidence : Rat
  deriving DecidableEq, Repr

/-- `schemas/recognition_result.py` dataclass `RecognitionResult`. -/
structure RecognitionResult where
  id : String
  screenshot_hash : String
  elements : List UIElement
  model_name : String
  inference_time : Rat
  status : RecognitionStatus
  source : InferenceSource
  created_at : Nat := 0
  expires_at : Option Nat := none
  model_version : Option String := none
  deriving DecidableEq, Repr

/-- `RecognitionResult.element_count`. -/
def RecognitionResult.element_count (r : RecognitionResult) : Nat :=
  r.elements.length

/-- `RecognitionResult.average_confidence`. -/
def RecognitionResult.average_confidence (r : RecognitionResult) : Rat :=
  if r.elements.isEmpty then 0
  else (r.elements.map (·.confidence)).sum / r.elements.length

/-- `RecognitionResult.is_expired` at the given current time. -/
def RecognitionResult.is_expired (r : RecognitionResult) (now : Nat) : Bool :=
  match r.expires_at with
  | none => false
  | some e => e ≤ now

/-- `RecognitionResult.to_dict`. -/
def RecognitionResult.to_dict (r : RecognitionResult) : ResultDict :=
  { id := r.id
    screenshot_hash := r.screenshot_hash
    elements := r.elements.map UIElement.to_dict
    model_name := r.model_name
    model_version := r.model_version
    inference_time := r.inference_time
    status := r.status.pyName
    source := r.source.pyName
    created_at := r.created_at
    expires_at := r.expires_at
    element_count := r.element_count
    average_confidence := r.average_confidence }

/-- `RecognitionResult.from_dict` followed by the dataclass
`__post_init__`: elements are rebuilt with `UIElement.from_dict`, unknown
enum names fall back to `SUCCESS` / `LOCAL_GPU`, an empty id is replaced by
a fresh UUID, a negative inference time raises `ValueError`, and a missing
`expires_at` defaults to `created_at + CACHE_TTL`. -/
def RecognitionResult.from_dict (d : ResultDict) :
    Except PyErr RecognitionResult := do
  let elements ← d.elements.mapM UIElement.from_dict
  let status := (RecognitionStatus.ofName d.status).getD .SUCCESS
  let source := (InferenceSource.ofName d.source).getD .LOCAL_GPU
  if d.inference_time < 0 then .error .valueError
  else
    .ok { id := if d.id = "" then uuid4Model else d.id
          screenshot_hash := d.screenshot_hash
          elements := elements
          model_name := d.model_name
          inference_time := d.inference_time
          status := status
          source := source
          created_at := d.created_at
          expires_at := some (d.expires_at.getD (d.created_at + CACHE_TTL))
          model_version := d.model_version }

/-- `schemas/screenshot.py` dataclass `Screenshot`, restricted to the
fields the pipeline consumes (the pixel data itself is external). -/
structure ScreenshotMeta where
  hash : String
  width : Nat
  height : Nat
  deriving DecidableEq, Repr

/-! ## ResultProcessor (`services/result_processor.py`) -/

/-- `ResultProcessor._filter_invalid`: drops elements with a malformed
bounding box (`not element.bbox or len != 4`, or corners not strictly
ordered) or an out-of-range confidence. -/
def filter_invalid (elements : List UIElement) : List UIElement :=
  elements.filter fun e =>
    (e.bbox.length == 4) && (e.bx1 < e.bx2) && (e.by1 < e.by2)
      && (0 ≤ e.confidence) && (e.confidence ≤ 1)

/-- `ResultProcessor._annotate_uncertainty`.  The source iterates the
elements and, on the first one with `confidence < threshold`, evaluates
`element.attributes`; the `UIElement` dataclass declares no `attributes`
field, so that access raises `AttributeError`.  When no element is below
the threshold the loop body never runs and the list is returned
unchanged. -/
def annotate_uncertainty (threshold : Rat) (elements : List UIElement) :
    Except PyErr (List UIElement) :=
  if elements.any (fun e => e.confidence < threshold) then
    .error .attributeError
  else .ok elements

/-- Reading-order comparison used by `ResultProcessor._sort_by_position`:
ascending on `(y1, x1)`; `sorted` in Python is stable, matched here by
`List.mergeSort`. -/
def posLE (a b : UIElement) : Bool :=
  (a.by1 < b.by1) || (a.by1 == b.by1 && a.bx1 ≤ b.bx1)

/-- Insert an element into a position-sorted list, before the first
element it compares `≤` to (so that elements occurring earlier in the
original list stay first among equals, as Python's stable sort
guarantees). -/
def insertPos (x : UIElement) : List UIElement → List UIElement
  | [] => [x]
  | y :: ys => if posLE x y then x :: y :: ys else y :: insertPos x ys

/-- `ResultProcessor._sort_by_position`: Python's `sorted` is a stable
sort on the `(y1, x1)` key, modelled by a stable insertion sort. -/
def sort_by_position : List UIElement → List UIElement
  | [] => []
  | x :: xs => insertPos x (sort_by_position xs)

/-- `ResultProcessor._assign_ids`.  The loop evaluates `element.id` on the
first element; the `UIElement` dataclass declares no `id` field, so a
non-empty list raises `AttributeError`, while an empty list is returned
unchanged. -/
def assign_ids (elements : List UIElement) : Except PyErr (List UIElement) :=
  match elements with
  | [] => .ok []
  | _ :: _ => .error .attributeError

/-- `ResultProcessor._determine_status`. -/
def determine_status (threshold : Rat) (elements : List UIElement) :
    RecognitionStatus :=
  if elements.isEmpty then .FAILURE
  else if elements.countP (fun e => e.actionable) = 0 then .PARTIAL_SUCCESS
  else if (elements.map (·.confidence)).sum / elements.length < threshold then
    .PARTIAL_SUCCESS
  else .SUCCESS

/-- `ResultProcessor.process`: filter, annotate, sort, assign ids,
classify, then build the `RecognitionResult` (whose `__post_init__`
raises on a negative inference time and defaults `expires_at` to
`created_at + CACHE_TTL`). -/
def process (threshold : Rat) (elements : List UIElement)
    (shot : ScreenshotMeta) (model_name : String) (inference_time : Rat)
    (source : InferenceSource) (now : Nat) :
    Except PyErr RecognitionResult := do
  let valid := filter_invalid elements
  let annotated ← annotate_uncertainty threshold valid
  let sorted := sort_by_position annotated
  let withIds ← assign_ids sorted
  let status := determine_status threshold withIds
  if inference_time < 0 then .error .valueError
  else
    .ok { id := uuid4Model
          screenshot_hash := shot.hash
          elements := withIds
          model_name := model_name
          inference_time := inference_time
          status := status
          source := source
          created_at := now
          expires_at := some (now + CACHE_TTL)
          model_version := none }

/-! ## VisionEngine (`services/vision_engine.py`) -/

/-- Outcome of one `adapter.infer` call: a list of elements, or a raised
exception (`TimeoutError` and any other failure are handled identically by
the orchestrator: log, fall through to the next adapter). -/
inductive AdapterOutcome where
  | success (elements : List UIElement)
  | failure
  deriving DecidableEq, Repr

/-- A vision model adapter, abstracted to its name and the outcome its
`infer` call produces for the screenshot under consideration. -/
structure Adapter where
  name : String
  outcome : AdapterOutcome
  deriving DecidableEq, Repr

/-- `VisionEngine` construction state: primary adapter, backup adapters,
optional cloud adapter, the `enable_cloud` configuration flag, and the
answer the user gives to the `_check_cloud_consent` dialog. -/
structure VisionEngine where
  primary : Adapter
  backups : List Adapter
  cloud : Option Adapter
  enable_cloud : Bool
  consent : Bool
  deriving DecidableEq, Repr

/-- The backup-adapter loop of `infer_with_fallback`: try each backup in
order, stopping at the first success; returns the successful elements (if
any) and the names of the adapters attempted. -/
def tryBackups : List Adapter → Option (List UIElement) × List String
  | [] => (none, [])
  | a :: rest =>
    match a.outcome with
    | .success els => (some els, [a.name])
    | .failure =>
      let (r, t) := tryBackups rest
      (r, a.name :: t)

/-- `VisionEngine.infer_with_fallback`.  Returns the elements, the
`InferenceSource` tag, and (for the theorems below) the trace of adapter
names attempted, in order.  On total exhaustion the source returns
`([], InferenceSource.CACHE)` (line 180 of `vision_engine.py`). -/
def VisionEngine.infer_with_fallback (e : VisionEngine) :
    List UIElement × InferenceSource × List String :=
  match e.primary.outcome with
  | .success els => (els, .LOCAL_GPU, [e.primary.name])
  | .failure =>
    match tryBackups e.backups with
    | (some els, t) => (els, .LOCAL_CPU, e.primary.name :: t)
    | (none, t) =>
      let localNames := e.primary.name :: t
      match e.cloud with
      | some c =>
        if e.enable_cloud then
          if e.consent then
            match c.outcome with
            | .success els => (els, .CLOUD_API, localNames ++ [c.name])
            | .failure => ([], .CACHE, localNames ++ [c.name])
          else ([], .CACHE, localNames)
        else ([], .CACHE, localNames)
      | none => ([], .CACHE, localNames)

/-- The full priority order of adapters: primary, then backups, then the
cloud adapter when present. -/
def VisionEngine.priorityNames (e : VisionEngine) : List String :=
  e.primary.name
    :: (e.backups.map (·.name)
      ++ (match e.cloud with | some c => [c.name] | none => []))

/-- Every local adapter (primary and backups) fails. -/
def VisionEngine.allLocalsFail (e : VisionEngine) : Prop :=
  e.primary.outcome = .failure ∧ ∀ a ∈ e.backups, a.outcome = .failure

/-- Every available adapter (including the cloud one, if any) fails. -/
def VisionEngine.allFail (e : VisionEngine) : Prop :=
  e.allLocalsFail ∧ ∀ c, e.cloud = some c → c.outcome = .failure

/-! ## Navigation cursor (`core/recognition_controller.py`) -/

/-- The controller's navigation state: the last result's elements and the
current element index (`_current_element_index`; Python's `int`, so
modelled as `Int`). -/
structure NavState where
  elements : List UIElement
  index : Int
  deriving DecidableEq, Repr

/-- `RecognitionController.get_next_element`: returns the element reached
(or `none` past the end, pinning the index at `len - 1`) and the updated
state. -/
def NavState.get_next (s : NavState) : Option UIElement × NavState :=
  if s.elements.isEmpty then (none, s)
  else
    let i := s.index + 1
    if i ≥ s.elements.length then
      (none, { s with index := (s.elements.length : Int) - 1 })
    else (s.elements.get? i.toNat, { s with index := i })

/-- `RecognitionController.get_previous_element`: returns the element
reached (or `none` past the start, pinning the index at `0`) and the
updated state. -/
def NavState.get_previous (s : NavState) : Option UIElement × NavState :=
  if s.elements.isEmpty then (none, s)
  else
    let i := s.index - 1
    if i < 0 then (none, { s with index := 0 })
    else (s.elements.get? i.toNat, { s with index := i })

/-- `RecognitionController.get_current_element`. -/
def NavState.get_current (s : NavState) : Option UIElement :=
  if s.elements.isEmpty then none
  else if s.index < 0 ∨ s.index ≥ s.elements.length then none
  else s.elements.get? s.index.toNat

/-- A navigation keystroke. -/
inductive NavOp where
  | next
  | prev
  deriving DecidableEq, Repr

/-- Apply one navigation operation to the cursor state. -/
def NavState.applyOp (s : NavState) : NavOp → NavState
  | .next => (s.get_next).2
  | .prev => (s.get_previous).2

/-- Apply a sequence of navigation operations. -/
def NavState.applyOps (s : NavState) (ops : List NavOp) : NavState :=
  ops.foldl NavState.applyOp s

/-- Iterate `get_next` the given number of times, collecting the returned
values in order. -/
def NavState.runNexts : Nat → NavState → List (Option UIElement) × NavState
  | 0, s => ([], s)
  | n + 1, s =>
    let (o, s1) := s.get_next
    let (os, s2) := NavState.runNexts n s1
    (o :: os, s2)

/-! ## CacheDatabase (`infrastructure/cache_database.py`)

The SQLite connection is opened without ever executing
`PRAGMA foreign_keys=ON`; SQLite keeps foreign-key enforcement OFF by
default, so the `ON DELETE CASCADE` clauses declared in `_create_tables`
have no effect at runtime.  The model therefore performs no cascading
deletes, matching the connection's actual behaviour. -/

/-- A row of the `screenshots` table. -/
structure ScreenshotRow where
  sid : Nat
  sha256_hash : String
  width : Nat
  height : Nat
  captured_at : Nat
  expires_at : Nat
  deriving DecidableEq, Repr

/-- A row of the `recognition_results` table.  `result_json` holds the
JSON-serialised `RecognitionResult.to_dict` payload; since
`json.loads (json.dumps d) = d` for these dictionaries, the model stores
the dictionary itself. -/
structure ResultRow where
  rid : Nat
  screenshot_id : Nat
  model_name : String
  inference_time_ms : Int
  confidence_score : Rat
  element_count : Nat
  result_json : ResultDict
  hit_count : Nat
  last_accessed_at : Nat
  status : String
  created_at : Nat
  deriving DecidableEq, Repr

/-- A row of the `ui_elements` table. -/
structure ElementRow where
  eid : Nat
  result_id : Nat
  element_type : String
  text_content : String
  x1 : Int
  y1 : Int
  x2 : Int
  y2 : Int
  confidence : Rat
  actionable : Bool
  deriving DecidableEq, Repr

/-- The database state: the three tables plus the autoincrement
counters. -/
structure CacheDB where
  screenshots : List ScreenshotRow
  results : List ResultRow
  elements : List ElementRow
  nextSid : Nat := 0
  nextRid : Nat := 0
  nextEid : Nat := 0
  deriving DecidableEq, Repr

/-- A freshly created database. -/
def CacheDB.empty : CacheDB := ⟨[], [], [], 0, 0, 0⟩

/-- `ORDER BY last_accessed_at ASC` comparison used by `_evict_lru`; ties
are broken by rowid (SQLite leaves the order of equal keys unspecified;
the theorems below either avoid ties or do not depend on how they are
broken). -/
def rowLE (a b : ResultRow) : Bool :=
  (a.last_accessed_at < b.last_accessed_at)
    || (a.last_accessed_at == b.last_accessed_at && a.rid ≤ b.rid)

/-- `CacheDatabase._evict_lru`: if more than `keep_count` result rows
exist, delete the `count - keep_count` rows with the oldest
`last_accessed_at`.  Dependent `ui_elements` rows are NOT deleted
(foreign keys are off on this connection).  The surviving rows are kept in
ascending `(last_accessed_at, rowid)` order, which is observationally
equivalent to the table order since every later read is
order-insensitive. -/
def CacheDB.evict_lru (db : CacheDB) (keep_count : Nat) : CacheDB :=
  if db.results.length ≤ keep_count then db
  else
    { db with
      results := (db.results.mergeSort rowLE).drop
        (db.results.length - keep_count) }

/-- `ORDER BY r.created_at DESC LIMIT 1` selection: `b` is strictly newer
than `a` (ties on `created_at` broken by rowid, see `rowLE`). -/
def newer (b a : ResultRow) : Bool :=
  (a.created_at < b.created_at)
    || (a.created_at == b.created_at && a.rid < b.rid)

/-- One step of the newest-row selection: keep the newer of the
accumulator and the next row. -/
def newerPick (acc : Option ResultRow) (r : ResultRow) : Option ResultRow :=
  match acc with
  | none => some r
  | some a => if newer r a then some r else some a

/-- Pick the newest result row of a list (the row `ORDER BY created_at
DESC LIMIT 1` returns), `none` on the empty list. -/
def newestRow (rows : List ResultRow) : Option ResultRow :=
  rows.foldl newerPick none

/-- The `JOIN`/`WHERE` clause of `lookup_cache`: the result row joins a
screenshots row with the wanted hash whose `expires_at` lies strictly in
the future. -/
def CacheDB.liveFor (db : CacheDB) (hash : String) (now : Nat)
    (r : ResultRow) : Bool :=
  db.screenshots.any fun s =>
    s.sid == r.screenshot_id && s.sha256_hash == hash && now < s.expires_at

/-- `CacheDatabase.lookup_cache`: select the newest non-expired result row
for the hash; on a hit, increment its `hit_count` and set its
`last_accessed_at` to now, and return its `result_json` payload.  (The
source also adds bookkeeping keys `_cache_hit` / `_hit_count` to the
returned dictionary; `RecognitionResult.from_dict` never reads them, so
they are not modelled.) -/
def CacheDB.lookup_cache (db : CacheDB) (hash : String) (now : Nat) :
    Option ResultDict × CacheDB :=
  match newestRow (db.results.filter (db.liveFor hash now)) with
  | none => (none, db)
  | some row =>
    (some row.result_json,
      { db with
        results := db.results.map fun x =>
          if x.rid == row.rid then
            { x with hit_count := x.hit_count + 1, last_accessed_at := now }
          else x })

/-- Insert the `ui_elements` rows for one result (the per-element loop at
the end of `insert_cache`); `element['bbox'][k]` is modelled with `getD`
(every serialised element has a length-4 bbox). -/
def insertElemRows (result_id : Nat) : List ElemDict → Nat → List ElementRow
  | [], _ => []
  | d :: rest, eid =>
    { eid := eid
      result_id := result_id
      element_type := d.etype
      text_content := d.text
      x1 := d.bbox.getD 0 0
      y1 := d.bbox.getD 1 0
      x2 := d.bbox.getD 2 0
      y2 := d.bbox.getD 3 0
      confidence := d.confidence
      actionable := d.actionable } :: insertElemRows result_id rest (eid + 1)

/-- The `INSERT OR IGNORE INTO screenshots` step of `insert_cache`: a new
row is appended only when no row with the fingerprint exists yet. -/
def CacheDB.insertScreenshot (db : CacheDB) (hash : String) (w h : Nat)
    (now expires : Nat) : CacheDB :=
  if db.screenshots.any (fun s => s.sha256_hash == hash) then db
  else
    { db with
      screenshots := db.screenshots
        ++ [⟨db.nextSid, hash, w, h, now, expires⟩]
      nextSid := db.nextSid + 1 }

/-- The `SELECT id FROM screenshots WHERE sha256_hash = ?` step of
`insert_cache` (the row always exists at this point; 0 is a dead
default). -/
def CacheDB.findSid (db : CacheDB) (hash : String) : Nat :=
  match db.screenshots.find? (fun s => s.sha256_hash == hash) with
  | some s => s.sid
  | none => 0

/-- The `recognition_results` row built by `insert_cache`: averaged
confidence, element count, serialised payload, zero hits,
`last_accessed_at`/`created_at` defaulting to the current time. -/
def mkResultRow (rid sid : Nat) (model_name : String) (rdict : ResultDict)
    (now : Nat) : ResultRow :=
  { rid := rid
    screenshot_id := sid
    model_name := model_name
    inference_time_ms := (rdict.inference_time * 1000).floor
    confidence_score :=
      if rdict.elements.length = 0 then 0
      else (rdict.elements.map (·.confidence)).sum / rdict.elements.length
    element_count := rdict.elements.length
    result_json := rdict
    hit_count := 0
    last_accessed_at := now
    status := rdict.status
    created_at := now }

/-- `CacheDatabase.insert_cache`:
1. if the result count is at least `max_results`, run `_evict_lru
   max_results`;
2. `INSERT OR IGNORE` the screenshots row, with
   `expires_at = now + ttl_minutes minutes`;
3. re-read the screenshot id for the hash;
4. insert the result row (averaged confidence, element count, serialised
   payload) and its `ui_elements` rows. -/
def CacheDB.insert_cache (db : CacheDB) (hash : String) (w h : Nat)
    (rdict : ResultDict) (model_name : String) (ttl_minutes : Nat)
    (max_results : Nat) (now : Nat) : CacheDB :=
  let db1 := if db.results.length ≥ max_results
    then db.evict_lru max_results else db
  let db2 := db1.insertScreenshot hash w h now (now + 60 * ttl_minutes)
  let row := mkResultRow db2.nextRid (db2.findSid hash) model_name rdict now
  { db2 with
    results := db2.results ++ [row]
    nextRid := db2.nextRid + 1
    elements := db2.elements
      ++ insertElemRows row.rid rdict.elements db2.nextEid
    nextEid := db2.nextEid + rdict.elements.length }

/-- `CacheDatabase._cleanup_expired`: delete the screenshots rows whose
`expires_at` has passed and report how many were deleted.  Dependent
`recognition_results` / `ui_elements` rows are NOT deleted: the declared
`ON DELETE CASCADE` actions are inert because the connection never enables
`PRAGMA foreign_keys`. -/
def CacheDB.cleanup_expired (db : CacheDB) (now : Nat) : CacheDB × Nat :=
  let deleted := db.screenshots.filter (fun s => s.expires_at < now)
  ({ db with
     screenshots := db.screenshots.filter (fun s => ¬ s.expires_at < now) },
   deleted.length)

/-! ## CacheManager (`services/cache_manager.py`) -/

/-- `CacheManager` state: configuration plus the backing database. -/
structure CacheManager where
  ttl_seconds : Nat
  max_size : Nat
  db : CacheDB
  deriving DecidableEq, Repr

/-- `CacheManager.put`: serialise the result and insert it, converting the
TTL with `ttl_minutes = ttl_seconds // 60` (integer division). -/
def CacheManager.put (m : CacheManager) (shot : ScreenshotMeta)
    (r : RecognitionResult) (now : Nat) : CacheManager :=
  { m with
    db := m.db.insert_cache shot.hash shot.width shot.height r.to_dict
      r.model_name (m.ttl_seconds / 60) m.max_size now }

/-- `CacheManager.get`: look up the hash; on a database-level hit, parse
the payload with `RecognitionResult.from_dict` (any exception is caught
and degrades to a miss) and additionally treat the result as a miss when
its own `is_expired` check fires. -/
def CacheManager.get (m : CacheManager) (shot : ScreenshotMeta) (now : Nat) :
    Option RecognitionResult × CacheManager :=
  match m.db.lookup_cache shot.hash now with
  | (none, db1) => (none, { m with db := db1 })
  | (some d, db1) =>
    match RecognitionResult.from_dict d with
    | .error _ => (none, { m with db := db1 })
    | .ok r =>
      if r.is_expired now then (none, { m with db := db1 })
      else (some r, { m with db := db1 })

/-! ## Recognition worker (`core/recognition_controller.py`) -/

/-- Which caller callback the worker ends up invoking (via
`_call_on_main_thread`). -/
inductive WorkerOutcome where
  | onSuccess (r : RecognitionResult)
  | onError (e : PyErr)
  deriving DecidableEq, Repr

/-- The deterministic environment of one `_recognition_worker` run with
the cancellation flag never set: the capture outcome, the engine (with the
per-screenshot adapter outcomes), the cache, the processor threshold, the
measured inference duration and the current time. -/
structure WorkerEnv where
  capture : Except PyErr ScreenshotMeta
  engine : VisionEngine
  cache : CacheManager
  threshold : Rat
  inference_time : Rat
  now : Nat

/-- `RecognitionController._recognition_worker` (cancellation flag off):
capture, cache lookup (hit → success callback), inference with fallback,
result processing (an exception reaches the error callback), cache write
unless the status is `FAILURE`, then the success callback. -/
def recognition_worker (env : WorkerEnv) : WorkerOutcome × CacheManager :=
  match env.capture with
  | .error e => (.onError e, env.cache)
  | .ok shot =>
    match env.cache.get shot env.now with
    | (some r, m1) => (.onSuccess r, m1)
    | (none, m1) =>
      let (els, src, _) := env.engine.infer_with_fallback
      match process env.threshold els shot env.engine.primary.name
          env.inference_time src env.now with
      | .error e => (.onError e, m1)
      | .ok result =>
        let m2 := if result.status ≠ .FAILURE
          then m1.put shot result env.now else m1
        (.onSuccess result, m2)

/-! ## Concrete inputs used by the theorems and witnesses -/

/-- A valid actionable element with confidence 0.5 (below the 0.7
threshold). -/
def elemLow : UIElement :=
  { element_type := "button", text := "Maybe", bbox := [100, 100, 180, 130]
    confidence := mkRat 1 2 }

/-- A valid actionable element with confidence 0.9. -/
def elemHigh : UIElement :=
  { element_type := "button", text := "OK", bbox := [100, 200, 200, 250]
    confidence := mkRat 9 10 }

/-- A sample screenshot descriptor. -/
def shot0 : ScreenshotMeta := ⟨"aabb", 800, 600⟩

/-- An engine whose only adapter (the primary) fails: no backups, no cloud
adapter, cloud fallback disabled. -/
def engineAllFail : VisionEngine := ⟨⟨"primary", .failure⟩, [], none, false, false⟩

/-- The fallback-order example: primary `A` fails, backup `B` succeeds, no
cloud adapter. -/
def engineAB : VisionEngine :=
  ⟨⟨"A", .failure⟩, [⟨"B", .success [elemHigh]⟩], none, false, false⟩

/-- A minimal serialised result payload with no elements. -/
def rdict0 : ResultDict :=
  ⟨"id0", "a", [], "m", none, 1, "SUCCESS", "LOCAL_GPU", 0, some 300, 0, 0⟩

/-- A valid in-flight result holding `elemHigh`, not self-expired before
time 1000. -/
def resHigh : RecognitionResult :=
  { id := "r1", screenshot_hash := "aabb", elements := [elemHigh]
    model_name := "m", inference_time := 1, status := .SUCCESS
    source := .LOCAL_GPU, created_at := 0, expires_at := some 1000 }

/-- A cache manager configured with `ttl_seconds = 30` (under one minute)
over an empty database. -/
def mgr30 : CacheManager := ⟨30, 10, CacheDB.empty⟩

/-- A cache manager configured with the default `ttl_seconds = 300` over
an empty database. -/
def mgr300 : CacheManager := ⟨300, 10, CacheDB.empty⟩

/-- Worker environment: capture succeeds, the cache is empty, and every
adapter of the engine fails. -/
def envAllFail : WorkerEnv :=
  ⟨.ok shot0, engineAllFail, mgr300, mkRat 7 10, 1, 100⟩

/-- The `RecognitionResult` the worker produces in `envAllFail`. -/
def resAllFail : RecognitionResult :=
  { id := uuid4Model, screenshot_hash := "aabb", elements := []
    model_name := "primary", inference_time := 1, status := .FAILURE
    source := .CACHE, created_at := 100, expires_at := some 400 }

/-- A database holding one expired screenshots row (id 0, expires at 5)
with one dependent result row and one dependent element row. -/
def dbCascade : CacheDB :=
  ⟨[⟨0, "h", 10, 10, 0, 5⟩],
   [⟨0, 0, "m", 1000, 1, 1, rdict0, 0, 0, "SUCCESS", 0⟩],
   [⟨0, 0, "button", "t", 1, 1, 2, 2, 1, true⟩], 1, 1, 1⟩

/-- Five valid elements, numbered 0 to 4. -/
def elems5 : List UIElement :=
  (List.range 5).map fun i =>
    { element_type := "button", text := toString i, bbox := [0, 0, 10, 10]
      confidence := mkRat 9 10 }

/-- Navigation state over `elems5`, cursor at index 0. -/
def nav5 : NavState := ⟨elems5, 0⟩

/-! ## Claim theorems -/

/-- C1: the claim says that when every available adapter fails (here: the
only adapter, the primary, fails; no backups, no cloud), the orchestrator
returns an empty element sequence tagged with a sentinel "no result" tier
distinct from the genuine cache tier.  Evaluating the code at this input
shows the empty result is tagged `InferenceSource.CACHE` — precisely the
enum member that denotes the cache tier — so the code contradicts the
claim (a labelling slip the spec itself flags as a latent bug). -/
theorem C1_exhaustion_tagged_with_cache_tier :
    engineAllFail.infer_with_fallback
      = ([], InferenceSource.CACHE, ["primary"]) := rfl

/-- C4: the claim says `process` annotates a surviving below-threshold
element non-destructively and returns a Result normally.  Evaluating the
code on one valid element with confidence 0.5 under threshold 0.7: the
element survives filtering, but `_annotate_uncertainty` evaluates
`element.attributes` — a field the `UIElement` dataclass does not declare —
so `process` raises `AttributeError` instead of returning. -/
theorem C4_annotate_raises_attribute_error :
    filter_invalid [elemLow] = [elemLow]
      ∧ annotate_uncertainty (mkRat 7 10) [elemLow] = .error .attributeError
      ∧ process (mkRat 7 10) [elemLow] shot0 "m" 1 .LOCAL_GPU 0
          = .error .attributeError :=
  ⟨rfl, rfl, rfl⟩

/-- C5: `_determine_status` classifies exactly as the claim states
(Success for `[{confidence:0.9, actionable}]`, PartialSuccess for
`[{confidence:0.5, actionable}]`, Failure for `[]` under threshold 0.7),
but `process` itself only ever reaches that classification for an empty
survivor list: on `[{confidence:0.9, actionable}]` it raises
`AttributeError` in `_assign_ids` (the `UIElement` dataclass declares no
`id` field), so the claimed end-to-end behaviour of `process` fails. -/
theorem C5_status_classification_and_process_crash :
    determine_status (mkRat 7 10) [elemHigh] = .SUCCESS
      ∧ determine_status (mkRat 7 10) [elemLow] = .PARTIAL_SUCCESS
      ∧ determine_status (mkRat 7 10) ([] : List UIElement) = .FAILURE
      ∧ process (mkRat 7 10) [elemHigh] shot0 "m" 1 .LOCAL_GPU 0
          = .error .attributeError
      ∧ process (mkRat 7 10) ([] : List UIElement) shot0 "m" 1 .LOCAL_GPU 0
          = .ok { id := uuid4Model, screenshot_hash := "aabb", elements := []
                  model_name := "m", inference_time := 1, status := .FAILURE
                  source := .LOCAL_GPU, created_at := 0
                  expires_at := some 300 } := by
  refine ⟨?_, ?_, by decide, rfl, rfl⟩
  · simp [determine_status, elemHigh, Rat.mkRat_eq_div]
    norm_num
  · simp [determine_status, elemLow, Rat.mkRat_eq_div]
    norm_num

/-- C8: the claim says deleting a screenshots row cascades to its
dependent results and elements rows.  Evaluating `_cleanup_expired` on a
store with one expired screenshots row, one dependent result row and one
dependent element row: the screenshots row is deleted but both dependent
rows remain (the connection never executes `PRAGMA foreign_keys=ON`, so
SQLite ignores the declared `ON DELETE CASCADE` actions), contradicting
the claim. -/
theorem C8_cleanup_leaves_orphan_rows :
    (dbCascade.cleanup_expired 10).2 = 1
      ∧ (dbCascade.cleanup_expired 10).1.screenshots = []
      ∧ (dbCascade.cleanup_expired 10).1.results
          = [⟨0, 0, "m", 1000, 1, 1, rdict0, 0, 0, "SUCCESS", 0⟩]
      ∧ (dbCascade.cleanup_expired 10).1.elements
          = [⟨0, 0, "button", "t", 1, 1, 2, 2, 1, true⟩] := by
  refine ⟨by decide, by decide, by decide, by decide⟩

/-- C2 counterexample: the claim says inserting `maxEntries + 1` distinct
fingerprints into a store with `maxEntries = N` leaves exactly `N`
entries.  With `N = 1`, inserting the two distinct fingerprints "a" and
"b" leaves 2 result rows, not 1: when the count equals `max_results`,
`_evict_lru(max_results)` returns without deleting anything and the insert
proceeds. -/
theorem C2_counterexample_two_rows_remain :
    ((CacheDB.empty.insert_cache "a" 1 1 rdict0 "m" 0 1 0).insert_cache
        "b" 1 1 rdict0 "m" 0 1 1).results.length = 2
      ∧ ¬ ((CacheDB.empty.insert_cache "a" 1 1 rdict0 "m" 0 1 0).insert_cache
        "b" 1 1 rdict0 "m" 0 1 1).results.length = 1 := by
  refine ⟨by decide, by decide⟩

/-- C3 counterexample: the claim says that when all backend adapters fail
the pipeline invokes the caller's error callback and does not invoke the
success callback.  Running the worker in an environment where capture
succeeds, the cache misses and the only adapter fails: the worker invokes
the SUCCESS callback with an empty `FAILURE`-status result (so the error
callback is not invoked), refuting the claim. -/
theorem C3_counterexample_success_callback_invoked :
    (recognition_worker envAllFail).1 = .onSuccess resAllFail := rfl

/-- The trace of `tryBackups` is a prefix of the backup name list, of
length at most the number of backups. -/
theorem tryBackups_trace_take (as : List Adapter) :
    ∃ k, k ≤ as.length
      ∧ (tryBackups as).2 = (as.map (·.name)).take k := by
  induction as with
  | nil => exact ⟨0, by simp, rfl⟩
  | cons a rest ih =>
    cases houtcome : a.outcome with
    | success els => exact ⟨1, by simp, by simp [tryBackups, houtcome]⟩
    | failure =>
      obtain ⟨k, hk, htrace⟩ := ih
      refine ⟨k + 1, by simpa using hk, ?_⟩
      simp [tryBackups, houtcome, htrace]

/-- When every backup fails, `tryBackups` finds nothing and attempts all
backups in order. -/
theorem tryBackups_all_fail (as : List Adapter)
    (h : ∀ a ∈ as, a.outcome = .failure) :
    tryBackups as = (none, as.map (·.name)) := by
  induction as with
  | nil => rfl
  | cons a rest ih =>
    have ha : a.outcome = .failure := h a (by simp)
    have hrest := ih (fun x hx => h x (by simp [hx]))
    simp [tryBackups, ha, hrest]

/-- Conversely, a `none` answer means every backup failed. -/
theorem tryBackups_none_all_fail (as : List Adapter)
    (h : (tryBackups as).1 = none) :
    ∀ a ∈ as, a.outcome = .failure := by
  induction as with
  | nil => simp
  | cons a rest ih =>
    intro x hx
    cases houtcome : a.outcome with
    | success els => simp [tryBackups, houtcome] at h
    | failure =>
      rcases List.mem_cons.mp hx with hx | hx
      · simpa [hx] using houtcome
      · refine ih ?_ x hx
        simpa [tryBackups, houtcome] using h

/-- The trace of `tryBackups` never exceeds the number of backups. -/
theorem tryBackups_trace_length (as : List Adapter) :
    (tryBackups as).2.length ≤ as.length := by
  obtain ⟨k, hk, htrace⟩ := tryBackups_trace_take as
  simp only [htrace, List.length_take, List.length_map]
  omega

/-- C7: adapters are attempted strictly in priority order.  (1) the trace
of attempted adapters is always an initial segment of the priority list
`primary :: backups ++ [cloud]`, so no adapter is attempted twice (2) and
in particular the trace has no duplicates whenever the adapter names are
distinct; (3) the cloud adapter is attempted only when every local adapter
has failed, cloud fallback is enabled in configuration AND the user grants
per-invocation consent; (4) concretely, with adapters `[A(fails),
B(succeeds)]` and no cloud adapter, `run` returns `B`'s elements tagged
with the CPU tier, after attempting exactly `A` then `B` (so no cloud
adapter is ever invoked). -/
theorem C7_priority_order :
    (∀ e : VisionEngine, ∃ k,
        e.infer_with_fallback.2.2 = e.priorityNames.take k)
      ∧ (∀ e : VisionEngine, e.priorityNames.Nodup →
          e.infer_with_fallback.2.2.Nodup)
      ∧ (∀ e : VisionEngine,
          1 + e.backups.length < e.infer_with_fallback.2.2.length →
          e.enable_cloud = true ∧ e.consent = true ∧ e.allLocalsFail)
      ∧ engineAB.infer_with_fallback
          = ([elemHigh], .LOCAL_CPU, ["A", "B"]) := by
  have htake : ∀ e : VisionEngine, ∃ k,
      e.infer_with_fallback.2.2 = e.priorityNames.take k := by
    intro e
    unfold VisionEngine.infer_with_fallback VisionEngine.priorityNames
    cases hp : e.primary.outcome with
    | success els => exact ⟨1, by simp⟩
    | failure =>
      obtain ⟨k, hk, htrace⟩ := tryBackups_trace_take e.backups
      cases hb : tryBackups e.backups with
      | mk found t =>
        cases found with
        | some els =>
          refine ⟨k + 1, ?_⟩
          have ht : t = (e.backups.map (·.name)).take k := by
            rw [hb] at htrace; exact htrace
          rw [List.take_succ_cons,
            List.take_append_of_le_length (by simpa using hk)]
          simp [ht]
        | none =>
          have ht : t = e.backups.map (·.name) := by
            have := tryBackups_none_all_fail e.backups (by rw [hb])
            have := tryBackups_all_fail e.backups this
            rw [hb] at this
            exact (Prod.mk.injEq _ _ _ _).mp this.symm |>.2.symm
          cases hc : e.cloud with
          | none =>
            refine ⟨e.backups.length + 1, ?_⟩
            rw [List.take_succ_cons,
              List.take_of_length_le (by simp)]
            simp [ht]
          | some c =>
            by_cases hec : e.enable_cloud
            · by_cases hcons : e.consent
              · cases hco : c.outcome with
                | success els2 =>
                  refine ⟨e.backups.length + 1 + 1, ?_⟩
                  simp only [hec, hcons, hco, if_true]
                  rw [List.take_succ_cons,
                    List.take_of_length_le (by simp)]
                  simp [ht]
                | failure =>
                  refine ⟨e.backups.length + 1 + 1, ?_⟩
                  simp only [hec, hcons, hco, if_true]
                  rw [List.take_succ_cons,
                    List.take_of_length_le (by simp)]
                  simp [ht]
              · refine ⟨e.backups.length + 1, ?_⟩
                simp only [hec, hcons, if_true, if_false]
                rw [List.take_succ_cons,
                  List.take_append_of_le_length (by simp)]
                simp [ht]
            · refine ⟨e.backups.length + 1, ?_⟩
              simp only [hec, if_false]
              rw [List.take_succ_cons,
                List.take_append_of_le_length (by simp)]
              simp [ht]
  refine ⟨htake, ?_, ?_, rfl⟩
  · intro e hnodup
    obtain ⟨k, hk⟩ := htake e
    rw [hk]
    exact hnodup.sublist (List.take_sublist k _)
  · intro e hlen
    unfold VisionEngine.infer_with_fallback at hlen
    cases hp : e.primary.outcome with
    | success els => simp [hp] at hlen
    | failure =>
      rw [hp] at hlen
      cases hb : tryBackups e.backups with
      | mk found t =>
        rw [hb] at hlen
        have htlen : t.length ≤ e.backups.length := by
          have := tryBackups_trace_length e.backups
          rw [hb] at this
          exact this
        cases found with
        | some els => simp at hlen; omega
        | none =>
          have hfail := tryBackups_none_all_fail e.backups (by rw [hb])
          cases hc : e.cloud with
          | none => rw [hc] at hlen; simp at hlen; omega
          | some c =>
            rw [hc] at hlen
            by_cases hec : e.enable_cloud
            · by_cases hcons : e.consent
              · exact ⟨hec, hcons, hp, hfail⟩
              · simp [hec, hcons] at hlen; omega
            · simp [hec] at hlen; omega

/-- Witness for C7 at a concrete input: the `[A(fails), B(succeeds)]`
engine's attempt trace has no duplicates, since its priority names are
distinct. -/
theorem C7_priority_order_witness :
    engineAB.infer_with_fallback.2.2.Nodup :=
  C7_priority_order.2.1 engineAB (by decide)

/-- One navigation keystroke keeps the cursor index inside
`[0, len - 1]` and never changes the element list. -/
theorem navStep_bounds (s : NavState) (op : NavOp) (hne : s.elements ≠ [])
    (h0 : 0 ≤ s.index) (hlt : s.index < s.elements.length) :
    (s.applyOp op).elements = s.elements
      ∧ 0 ≤ (s.applyOp op).index
      ∧ (s.applyOp op).index < s.elements.length := by
  have hemp : s.elements.isEmpty = false := by
    simp [List.isEmpty_iff, hne]
  have hlen : 0 < s.elements.length := List.length_pos.mpr hne
  cases op with
  | next =>
    simp only [NavState.applyOp, NavState.get_next, hemp, Bool.false_eq_true,
      if_false]
    split
    · refine ⟨rfl, ?_, ?_⟩ <;> simp <;> omega
    · rename_i hcond
      refine ⟨rfl, ?_, ?_⟩ <;> simp <;> omega
  | prev =>
    simp only [NavState.applyOp, NavState.get_previous, hemp,
      Bool.false_eq_true, if_false]
    split
    · refine ⟨rfl, ?_, ?_⟩ <;> simp <;> omega
    · rename_i hcond
      refine ⟨rfl, ?_, ?_⟩ <;> simp <;> omega

/-- Any sequence of navigation keystrokes keeps the cursor index inside
`[0, len - 1]` and never changes the element list. -/
theorem navOps_bounds (ops : List NavOp) (s : NavState)
    (hne : s.elements ≠ []) (h0 : 0 ≤ s.index)
    (hlt : s.index < s.elements.length) :
    (s.applyOps ops).elements = s.elements
      ∧ 0 ≤ (s.applyOps ops).index
      ∧ (s.applyOps ops).index < s.elements.length := by
  induction ops generalizing s with
  | nil => exact ⟨rfl, h0, hlt⟩
  | cons op rest ih =>
    obtain ⟨heq, h0s, hlts⟩ := navStep_bounds s op hne h0 hlt
    have hne2 : (s.applyOp op).elements ≠ [] := by rw [heq]; exact hne
    have := ih (s.applyOp op) hne2 h0s (by rw [heq]; exact hlts)
    simpa [NavState.applyOps, heq] using this

/-- C9: over a non-empty last result the navigation cursor stays inside
`[0, n-1]` under any sequence of `next`/`previous` keystrokes; `next` at
the last element returns `none` and pins the index at `n-1`; `previous`
at the first element returns `none` and pins the index at 0; concretely,
on a 5-element result starting at index 0, ten `next` calls return
elements 1..4 and then `none` repeatedly, ending with the index at 4
(which the general bound shows is never exceeded). -/
theorem C9_navigation_bounds :
    (∀ (ops : List NavOp) (s : NavState), s.elements ≠ [] →
        0 ≤ s.index → s.index < s.elements.length →
        0 ≤ (s.applyOps ops).index
          ∧ (s.applyOps ops).index < s.elements.length)
      ∧ (∀ s : NavState, s.elements ≠ [] →
          s.index = (s.elements.length : Int) - 1 →
          (s.get_next).1 = none
            ∧ (s.get_next).2.index = (s.elements.length : Int) - 1)
      ∧ (∀ s : NavState, s.elements ≠ [] → s.index = 0 →
          (s.get_previous).1 = none ∧ (s.get_previous).2.index = 0)
      ∧ (nav5.runNexts 10).1
          = [elems5.get? 1, elems5.get? 2, elems5.get? 3, elems5.get? 4,
             none, none, none, none, none, none]
      ∧ (nav5.runNexts 10).2.index = 4 := by
  refine ⟨?_, ?_, ?_, by decide, by decide⟩
  · intro ops s hne h0 hlt
    exact (navOps_bounds ops s hne h0 hlt).2
  · intro s hne hidx
    have hemp : s.elements.isEmpty = false := by
      simp [List.isEmpty_iff, hne]
    simp only [NavState.get_next, hemp, Bool.false_eq_true, if_false]
    have : ¬ s.index + 1 < (s.elements.length : Int) := by omega
    rw [if_pos (by omega)]
    exact ⟨rfl, rfl⟩
  · intro s hne hidx
    have hemp : s.elements.isEmpty = false := by
      simp [List.isEmpty_iff, hne]
    simp only [NavState.get_previous, hemp, Bool.false_eq_true, if_false]
    rw [if_pos (by omega)]
    exact ⟨rfl, rfl⟩

/-- Witness for C9 at a concrete input: two `next` keystrokes from index 0
over five elements keep the index within `[0, 4]`. -/
theorem C9_navigation_bounds_witness :
    0 ≤ (nav5.applyOps [NavOp.next, NavOp.next]).index
      ∧ (nav5.applyOps [NavOp.next, NavOp.next]).index
          < nav5.elements.length :=
  C9_navigation_bounds.1 [NavOp.next, NavOp.next] nav5 (by decide)
    (by decide) (by decide)

/-- `_evict_lru` touches only the `recognition_results` table. -/
theorem evict_lru_screenshots (db : CacheDB) (keep : Nat) :
    (db.evict_lru keep).screenshots = db.screenshots := by
  unfold CacheDB.evict_lru
  split <;> rfl

/-- `_evict_lru` does not change the autoincrement counters. -/
theorem evict_lru_nextSid (db : CacheDB) (keep : Nat) :
    (db.evict_lru keep).nextSid = db.nextSid := by
  unfold CacheDB.evict_lru
  split <;> rfl

/-- `insertScreenshot` leaves the `recognition_results` table alone. -/
theorem insertScreenshot_results (db : CacheDB) (hash : String)
    (w h now expires : Nat) :
    (db.insertScreenshot hash w h now expires).results = db.results := by
  unfold CacheDB.insertScreenshot
  split <;> rfl

/-- `insertScreenshot` does not change the result-row counter. -/
theorem insertScreenshot_nextRid (db : CacheDB) (hash : String)
    (w h now expires : Nat) :
    (db.insertScreenshot hash w h now expires).nextRid = db.nextRid := by
  unfold CacheDB.insertScreenshot
  split <;> rfl

/-- The `screenshots` table after `insert_cache`: unchanged when a row
with the fingerprint already exists (`INSERT OR IGNORE`), otherwise the
fresh row with `expires_at = now + ttl_minutes minutes` is appended. -/
theorem insert_cache_screenshots (db : CacheDB) (hash : String)
    (w h : Nat) (rd : ResultDict) (mn : String) (ttl maxr now : Nat) :
    (db.insert_cache hash w h rd mn ttl maxr now).screenshots
      = if db.screenshots.any (fun s => s.sha256_hash == hash)
        then db.screenshots
        else db.screenshots ++ [⟨db.nextSid, hash, w, h, now, now + 60 * ttl⟩] := by
  unfold CacheDB.insert_cache CacheDB.insertScreenshot
  by_cases hcap : db.results.length ≥ maxr <;>
    by_cases hany : db.screenshots.any (fun s => s.sha256_hash == hash) <;>
      simp [hcap, hany, evict_lru_screenshots, evict_lru_nextSid]

/-- If every screenshots row carrying the fingerprint has expired, the
database lookup is a miss. -/
theorem lookup_cache_none (db : CacheDB) (hash : String) (now : Nat)
    (h : ∀ s ∈ db.screenshots, s.sha256_hash = hash → s.expires_at ≤ now) :
    (db.lookup_cache hash now).1 = none := by
  unfold CacheDB.lookup_cache
  have hfilter : db.results.filter (db.liveFor hash now) = [] := by
    rw [List.filter_eq_nil_iff]
    intro rr _
    unfold CacheDB.liveFor
    rw [Bool.not_eq_true, List.any_eq_false]
    intro srow hsrow
    by_cases hh : srow.sha256_hash = hash
    · have := h srow hsrow hh
      simp [hh]
      omega
    · simp [hh]
  rw [hfilter]
  rfl

/-- C10: for a manager configured with `ttl_seconds < 60`, `put` truncates
the TTL to `ttl_minutes = ttl_seconds // 60 = 0`; a fingerprint stored
fresh therefore expires exactly at its insertion time, and — assuming
every pre-existing row for that fingerprint is likewise already expired,
as is always the case for entries written by such a manager — every
lookup of the fingerprint at or after the put time is a miss. -/
theorem C10_sub_minute_ttl_always_misses (m : CacheManager)
    (shot : ScreenshotMeta) (r : RecognitionResult) (t : Nat)
    (h1 : m.ttl_seconds < 60)
    (h2 : ∀ s ∈ m.db.screenshots, s.sha256_hash = shot.hash →
      s.expires_at ≤ t) :
    m.ttl_seconds / 60 = 0
      ∧ ((∀ s ∈ m.db.screenshots, s.sha256_hash ≠ shot.hash) →
          ∃ s ∈ (m.put shot r t).db.screenshots,
            s.sha256_hash = shot.hash ∧ s.expires_at = t)
      ∧ (∀ t2, t ≤ t2 → ((m.put shot r t).get shot t2).1 = none) := by
  have hdiv : m.ttl_seconds / 60 = 0 := Nat.div_eq_of_lt h1
  have hscreens : (m.put shot r t).db.screenshots
      = if m.db.screenshots.any (fun s => s.sha256_hash == shot.hash)
        then m.db.screenshots
        else m.db.screenshots
          ++ [⟨m.db.nextSid, shot.hash, shot.width, shot.height, t, t⟩] := by
    have h60 : t + 60 * (m.ttl_seconds / 60) = t := by
      rw [hdiv]
      omega
    have := insert_cache_screenshots m.db shot.hash shot.width shot.height
      r.to_dict r.model_name (m.ttl_seconds / 60) m.max_size t
    rw [h60] at this
    exact this
  have hexp : ∀ s ∈ (m.put shot r t).db.screenshots,
      s.sha256_hash = shot.hash → s.expires_at ≤ t := by
    intro s hs hh
    rw [hscreens] at hs
    by_cases hany : m.db.screenshots.any (fun s => s.sha256_hash == shot.hash)
    · rw [if_pos hany] at hs
      exact h2 s hs hh
    · rw [if_neg hany] at hs
      rcases List.mem_append.mp hs with hold | hnew
      · exact h2 s hold hh
      · simp at hnew
        rw [hnew]
  refine ⟨hdiv, ?_, ?_⟩
  · intro hnone
    have hany : m.db.screenshots.any
        (fun s => s.sha256_hash == shot.hash) = false := by
      rw [List.any_eq_false]
      intro s hs
      simpa using hnone s hs
    rw [hscreens, if_neg (by rw [hany]; exact Bool.false_ne_true)]
    exact ⟨⟨m.db.nextSid, shot.hash, shot.width, shot.height, t, t⟩,
      List.mem_append_right _ (by simp), rfl, rfl⟩
  · intro t2 ht2
    have hmiss := lookup_cache_none (m.put shot r t).db shot.hash t2
      (fun s hs hh => le_trans (hexp s hs hh) ht2)
    unfold CacheManager.get
    cases hlk : (m.put shot r t).db.lookup_cache shot.hash t2 with
    | mk o db1 =>
      cases o with
      | none => rfl
      | some d =>
        rw [hlk] at hmiss
        simp at hmiss

/-- Witness for C10 at a concrete input: the sub-minute-TTL manager from
the C6 counterexample configuration, putting at time 0 and looking up at
time 1. -/
theorem C10_sub_minute_ttl_always_misses_witness :
    mgr30.ttl_seconds / 60 = 0
      ∧ ((∀ s ∈ mgr30.db.screenshots, s.sha256_hash ≠ shot0.hash) →
          ∃ s ∈ (mgr30.put shot0 resHigh 0).db.screenshots,
            s.sha256_hash = shot0.hash ∧ s.expires_at = 0)
      ∧ (∀ t2, 0 ≤ t2 → ((mgr30.put shot0 resHigh 0).get shot0 t2).1 = none) :=
  C10_sub_minute_ttl_always_misses mgr30 shot0 resHigh 0 (by decide)
    (by intro s hs; simp [mgr30, CacheDB.empty] at hs)

/-- When every available adapter fails, the orchestrator returns the
empty element list tagged `InferenceSource.CACHE`. -/
theorem infer_all_fail (e : VisionEngine) (h : e.allFail) :
    e.infer_with_fallback.1 = [] ∧ e.infer_with_fallback.2.1 = .CACHE := by
  obtain ⟨⟨hp, hbk⟩, hcl⟩ := h
  unfold VisionEngine.infer_with_fallback
  rw [hp, tryBackups_all_fail e.backups hbk]
  cases hc : e.cloud with
  | none => exact ⟨rfl, rfl⟩
  | some c =>
    have hco := hcl c hc
    by_cases hec : e.enable_cloud <;> by_cases hcons : e.consent <;>
      simp [hec, hcons, hco]

/-- `process` on an empty element list returns a `FAILURE`-status result
with no elements (and raises nothing, provided the measured inference
time is non-negative, which a wall-clock duration always is). -/
theorem process_nil (threshold : Rat) (shot : ScreenshotMeta)
    (mn : String) (it : Rat) (src : InferenceSource) (now : Nat)
    (hit : 0 ≤ it) :
    process threshold [] shot mn it src now
      = .ok { id := uuid4Model, screenshot_hash := shot.hash, elements := []
              model_name := mn, inference_time := it, status := .FAILURE
              source := src, created_at := now
              expires_at := some (now + CACHE_TTL) } := by
  have hnn : ¬ it < 0 := not_lt.mpr hit
  simp [process, filter_invalid, annotate_uncertainty, sort_by_position,
    assign_ids, determine_status, hnn]
  rfl

/-- C3 (amended): when every backend adapter fails, the worker does not
surface an error: the request degrades to an empty `FAILURE`-status
Result delivered through the SUCCESS callback (`onRecognitionComplete`),
and the error callback is reserved for exceptions raised during
capture or processing. -/
theorem C3_amended_exhaustion_degrades_to_success_callback
    (env : WorkerEnv) (shot : ScreenshotMeta)
    (hcap : env.capture = .ok shot)
    (hmiss : (env.cache.get shot env.now).1 = none)
    (hfail : env.engine.allFail)
    (hit : 0 ≤ env.inference_time) :
    (recognition_worker env).1
      = .onSuccess
          { id := uuid4Model, screenshot_hash := shot.hash, elements := []
            model_name := env.engine.primary.name
            inference_time := env.inference_time, status := .FAILURE
            source := .CACHE, created_at := env.now
            expires_at := some (env.now + CACHE_TTL) } := by
  obtain ⟨hels, hsrc⟩ := infer_all_fail env.engine hfail
  cases hget : env.cache.get shot env.now with
  | mk o m1 =>
    rw [hget] at hmiss
    simp at hmiss
    subst hmiss
    cases hi : env.engine.infer_with_fallback with
    | mk els rest =>
      cases rest with
      | mk src tr =>
        rw [hi] at hels hsrc
        simp only at hels hsrc
        subst hels
        subst hsrc
        unfold recognition_worker
        simp only [hcap, hget, hi]
        rw [process_nil env.threshold shot env.engine.primary.name
          env.inference_time .CACHE env.now hit]

/-- Witness for C3 (amended) at the concrete all-fail environment. -/
theorem C3_amended_witness :
    (recognition_worker envAllFail).1
      = .onSuccess
          { id := uuid4Model, screenshot_hash := "aabb", elements := []
            model_name := "primary", inference_time := 1, status := .FAILURE
            source := .CACHE, created_at := 100
            expires_at := some 400 } :=
  C3_amended_exhaustion_degrades_to_success_callback envAllFail shot0 rfl
    (by decide) ⟨⟨rfl, by simp [envAllFail, engineAllFail]⟩,
      by simp [envAllFail, engineAllFail]⟩ (by decide)

/-- `_evict_lru` does not change the result-row autoincrement counter. -/
theorem evict_lru_nextRid (db : CacheDB) (keep : Nat) :
    (db.evict_lru keep).nextRid = db.nextRid := by
  unfold CacheDB.evict_lru
  split <;> rfl

/-- `_evict_lru` leaves `min count keep_count` result rows. -/
theorem evict_lru_length (db : CacheDB) (keep : Nat) :
    (db.evict_lru keep).results.length = min db.results.length keep := by
  unfold CacheDB.evict_lru
  split
  · rename_i hle
    omega
  · rename_i hgt
    simp only [List.length_drop, List.length_mergeSort]
    omega

/-- The eviction order `(last_accessed_at, rowid)` is transitive. -/
theorem rowLE_trans : ∀ (a b c : ResultRow),
    rowLE a b → rowLE b c → rowLE a c := by
  intro a b c hab hbc
  simp only [rowLE, Bool.or_eq_true, Bool.and_eq_true, decide_eq_true_eq,
    beq_iff_eq] at hab hbc ⊢
  omega

/-- The eviction order `(last_accessed_at, rowid)` is total. -/
theorem rowLE_total : ∀ (a b : ResultRow), rowLE a b || rowLE b a := by
  intro a b
  simp only [rowLE, Bool.or_eq_true, Bool.and_eq_true, decide_eq_true_eq,
    beq_iff_eq]
  omega

/-- Any row `_evict_lru` removes is no newer (in `(last_accessed_at,
rowid)` order) than any row it keeps: evicted rows are the
least-recently-accessed ones. -/
theorem evict_lru_oldest (db : CacheDB) (keep : Nat) (r : ResultRow)
    (hr : r ∈ db.results) (hrGone : r ∉ (db.evict_lru keep).results)
    (r2 : ResultRow) (hr2 : r2 ∈ (db.evict_lru keep).results) :
    rowLE r r2 = true := by
  unfold CacheDB.evict_lru at hrGone hr2
  by_cases hle : db.results.length ≤ keep
  · rw [if_pos hle] at hrGone
    exact absurd hr hrGone
  · rw [if_neg hle] at hrGone hr2
    have hperm := List.mergeSort_perm db.results rowLE
    have hmem : r ∈ db.results.mergeSort rowLE := hperm.mem_iff.mpr hr
    have hsorted : (db.results.mergeSort rowLE).Pairwise (rowLE · ·) :=
      List.sorted_mergeSort rowLE_trans rowLE_total db.results
    have hsplit := List.take_append_drop
      (db.results.length - keep) (db.results.mergeSort rowLE)
    rw [← hsplit] at hmem hsorted
    have hrTake : r ∈ (db.results.mergeSort rowLE).take
        (db.results.length - keep) := by
      rcases List.mem_append.mp hmem with htk | hdp
      · exact htk
      · exact absurd hdp hrGone
    exact ((List.pairwise_append.mp hsorted).2.2) r hrTake r2 hr2

/-- `insert_cache` appends exactly one result row to the (conditionally
LRU-evicted) pre-state rows. -/
theorem insert_cache_length (db : CacheDB) (hash : String) (w h : Nat)
    (rd : ResultDict) (mn : String) (ttl maxr now : Nat) :
    (db.insert_cache hash w h rd mn ttl maxr now).results.length
      = (if db.results.length ≥ maxr
         then db.evict_lru maxr else db).results.length + 1 := by
  unfold CacheDB.insert_cache
  simp [insertScreenshot_results]

/-- Every result row present after `insert_cache` either survived the
conditional eviction or is the freshly inserted row, whose rowid is the
pre-state autoincrement counter. -/
theorem insert_cache_mem_new (db : CacheDB) (hash : String) (w h : Nat)
    (rd : ResultDict) (mn : String) (ttl maxr now : Nat) (r : ResultRow)
    (hmem : r ∈ (db.insert_cache hash w h rd mn ttl maxr now).results) :
    r ∈ (if db.results.length ≥ maxr
        then db.evict_lru maxr else db).results
      ∨ r.rid = db.nextRid := by
  unfold CacheDB.insert_cache at hmem
  simp only [List.mem_append, List.mem_singleton,
    insertScreenshot_results] at hmem
  rcases hmem with hold | hnew
  · exact Or.inl hold
  · refine Or.inr ?_
    rw [hnew]
    by_cases hcap : db.results.length ≥ maxr <;>
      simp [hcap, mkResultRow, insertScreenshot_nextRid, evict_lru_nextRid]

/-- Every result row that survives the conditional eviction is present
after `insert_cache`. -/
theorem insert_cache_keeps (db : CacheDB) (hash : String) (w h : Nat)
    (rd : ResultDict) (mn : String) (ttl maxr now : Nat) (r : ResultRow)
    (hmem : r ∈ (if db.results.length ≥ maxr
        then db.evict_lru maxr else db).results) :
    r ∈ (db.insert_cache hash w h rd mn ttl maxr now).results := by
  unfold CacheDB.insert_cache
  simp only [List.mem_append, List.mem_singleton, insertScreenshot_results]
  exact Or.inl hmem

/-- C2 (amended): `put` evicts the least-recently-accessed rows only down
to exactly `maxEntries` (never strictly below), so the row count after an
insert is `min (count, maxEntries) + 1`; consequently inserting
`maxEntries + 1` distinct fingerprints leaves `maxEntries + 1` entries —
one more than the claim states — and whenever rows are evicted they are
exactly the ones oldest in `(lastAccessedAt, rowid)` order: every evicted
row is no newer than every surviving pre-existing row. -/
theorem C2_amended_eviction_to_max_and_oldest (db : CacheDB)
    (hash : String) (w h : Nat) (rd : ResultDict) (mn : String)
    (ttl maxr now : Nat)
    (hbound : ∀ row ∈ db.results, row.rid < db.nextRid) :
    (db.insert_cache hash w h rd mn ttl maxr now).results.length
        = min db.results.length maxr + 1
      ∧ ∀ r ∈ db.results,
          r ∉ (db.insert_cache hash w h rd mn ttl maxr now).results →
          ∀ r2 ∈ (db.insert_cache hash w h rd mn ttl maxr now).results,
            r2 ∈ db.results → rowLE r r2 = true := by
  constructor
  · rw [insert_cache_length db hash w h rd mn ttl maxr now]
    by_cases hcap : db.results.length ≥ maxr
    · rw [if_pos hcap, evict_lru_length]
    · rw [if_neg hcap]
      omega
  · intro r hr hrGone r2 hr2 hr2old
    have hr2keep : r2 ∈ (if db.results.length ≥ maxr
        then db.evict_lru maxr else db).results := by
      rcases insert_cache_mem_new db hash w h rd mn ttl maxr now r2 hr2
        with hkeep | hnew
      · exact hkeep
      · have := hbound r2 hr2old
        omega
    have hrGone2 : r ∉ (if db.results.length ≥ maxr
        then db.evict_lru maxr else db).results := by
      intro hmem
      exact hrGone (insert_cache_keeps db hash w h rd mn ttl maxr now r hmem)
    by_cases hcap : db.results.length ≥ maxr
    · rw [if_pos hcap] at hr2keep
      rw [if_pos hcap] at hrGone2
      exact evict_lru_oldest db maxr r hr hrGone2 r2 hr2keep
    · rw [if_neg hcap] at hrGone2
      exact absurd hr hrGone2

/-- Witness for C2 (amended) at a concrete input: inserting a second
distinct fingerprint into a `maxEntries = 1` store that already holds one
row yields `min 1 1 + 1 = 2` rows. -/
theorem C2_amended_witness :
    ((CacheDB.empty.insert_cache "a" 1 1 rdict0 "m" 0 1 0).insert_cache
        "b" 1 1 rdict0 "m" 0 1 1).results.length
      = min (CacheDB.empty.insert_cache "a" 1 1 rdict0 "m" 0 1 0).results.length
          1 + 1 :=
  (C2_amended_eviction_to_max_and_oldest
    (CacheDB.empty.insert_cache "a" 1 1 rdict0 "m" 0 1 0)
    "b" 1 1 rdict0 "m" 0 1 1 (by decide)).1

/-- Enum round trip: parsing the serialised name recovers the status. -/
theorem RecognitionStatus.ofName_of_pyName (st : RecognitionStatus) :
    RecognitionStatus.ofName st.pyName = some st := by
  cases st <;> rfl

/-- Enum round trip: parsing the serialised name recovers the source. -/
theorem InferenceSource.ofName_of_source_pyName (src : InferenceSource) :
    InferenceSource.ofName src.pyName = some src := by
  cases src <;> rfl

/-- Element round trip: deserialising `to_dict` of a valid element
reconstructs the element unchanged (every field of the dataclass is
serialised). -/
theorem UIElement.from_dict_to_dict (e : UIElement) (h : e.validB = true) :
    UIElement.from_dict e.to_dict = .ok e := by
  simp only [UIElement.validB, Bool.and_eq_true, decide_eq_true_eq,
    beq_iff_eq] at h
  obtain ⟨⟨⟨⟨h0, h1⟩, h4⟩, hx⟩, hy⟩ := h
  unfold UIElement.from_dict UIElement.to_dict
  rw [if_neg (by
    simp only [not_not]
    exact ⟨h0, h1⟩)]
  rw [if_neg (by simpa using h4)]
  rw [if_neg (by
    simp only [not_or, not_le]
    exact ⟨hx, hy⟩)]

/-- List version of the element round trip. -/
theorem from_dict_map_to_dict (els : List UIElement)
    (h : ∀ e ∈ els, e.validB = true) :
    (els.map UIElement.to_dict).mapM UIElement.from_dict = .ok els := by
  induction els with
  | nil => rfl
  | cons e rest ih =>
    have he := h e (by simp)
    have hrest := ih (fun x hx => h x (by simp [hx]))
    simp only [List.map_cons, List.mapM_cons,
      UIElement.from_dict_to_dict e he, hrest]
    rfl

/-- Result round trip: deserialising `to_dict` of a result whose elements
are all valid and whose inference time is non-negative succeeds, and
preserves in particular the element list. -/
theorem result_roundtrip (r : RecognitionResult)
    (hval : ∀ e ∈ r.elements, e.validB = true)
    (hitime : 0 ≤ r.inference_time) :
    RecognitionResult.from_dict r.to_dict
      = .ok { id := if r.id = "" then uuid4Model else r.id
              screenshot_hash := r.screenshot_hash
              elements := r.elements
              model_name := r.model_name
              inference_time := r.inference_time
              status := r.status
              source := r.source
              created_at := r.created_at
              expires_at := some (r.expires_at.getD (r.created_at + CACHE_TTL))
              model_version := r.model_version } := by
  have hnn : ¬ r.inference_time < 0 := not_lt.mpr hitime
  unfold RecognitionResult.from_dict RecognitionResult.to_dict
  simp only [from_dict_map_to_dict r.elements hval,
    RecognitionStatus.ofName_of_pyName, InferenceSource.ofName_of_source_pyName,
    Option.getD_some, hnn, if_false]
  rfl

/-- Folding `newerPick` either keeps the accumulator or lands on a list
member. -/
theorem foldl_newerPick_mem (l : List ResultRow) :
    ∀ acc : Option ResultRow,
      l.foldl newerPick acc = acc ∨ ∃ y ∈ l, l.foldl newerPick acc = some y := by
  induction l with
  | nil => intro acc; exact Or.inl rfl
  | cons a rest ih =>
    intro acc
    have hstep : newerPick acc a = acc ∨ newerPick acc a = some a := by
      cases acc with
      | none => exact Or.inr rfl
      | some b =>
        by_cases hn : newer a b
        · exact Or.inr (by simp [newerPick, hn])
        · exact Or.inl (by simp [newerPick, hn])
    rw [List.foldl_cons]
    rcases ih (newerPick acc a) with h | ⟨y, hy, h⟩
    · rw [h]
      rcases hstep with h2 | h2
      · exact Or.inl h2
      · exact Or.inr ⟨a, by simp, h2⟩
    · exact Or.inr ⟨y, by simp [hy], h⟩

/-- If the last row of a list is strictly newer than every other row, the
newest-row selection returns it. -/
theorem newestRow_append_last (l : List ResultRow) (x : ResultRow)
    (h : ∀ y ∈ l, newer x y = true) :
    newestRow (l ++ [x]) = some x := by
  unfold newestRow
  rw [List.foldl_append]
  rcases foldl_newerPick_mem l none with hacc | ⟨y, hy, hacc⟩
  · rw [hacc]
    rfl
  · rw [hacc]
    simp [newerPick, h y hy]

/-- Eviction only removes rows: every surviving row was present. -/
theorem evict_lru_subset (db : CacheDB) (keep : Nat) :
    ∀ r ∈ (db.evict_lru keep).results, r ∈ db.results := by
  intro r hr
  unfold CacheDB.evict_lru at hr
  split at hr
  · exact hr
  · have hmem : r ∈ db.results.mergeSort rowLE := List.mem_of_mem_drop hr
    exact (List.mergeSort_perm db.results rowLE).mem_iff.mp hmem

/-- `_evict_lru` and `insertScreenshot` preserve the screenshots table of
the eviction step (eviction touches only result rows). -/
theorem evict_step_screenshots (db : CacheDB) (maxr : Nat) :
    (if db.results.length ≥ maxr then db.evict_lru maxr else db).screenshots
      = db.screenshots := by
  split
  · exact evict_lru_screenshots db maxr
  · rfl

/-- The eviction step preserves the result-row counter. -/
theorem evict_step_nextRid (db : CacheDB) (maxr : Nat) :
    (if db.results.length ≥ maxr then db.evict_lru maxr else db).nextRid
      = db.nextRid := by
  split
  · exact evict_lru_nextRid db maxr
  · rfl

/-- The eviction step keeps only pre-existing rows. -/
theorem evict_step_subset (db : CacheDB) (maxr : Nat) :
    ∀ r ∈ (if db.results.length ≥ maxr
        then db.evict_lru maxr else db).results, r ∈ db.results := by
  split
  · exact evict_lru_subset db maxr
  · exact fun r hr => hr

/-- A lookup performed right after `insert_cache` for the same
fingerprint returns exactly the payload just inserted, provided the
pre-state rows are older than the insert time, the fingerprint's
screenshots row (pre-existing or fresh) is unexpired at the lookup time,
and the lookup falls within the fresh entry's TTL window. -/
theorem lookup_after_insert (db : CacheDB) (hash : String) (w h : Nat)
    (rd : ResultDict) (mn : String) (ttl maxr t t2 : Nat)
    (hcreated : ∀ row ∈ db.results, row.created_at ≤ t)
    (hbound : ∀ row ∈ db.results, row.rid < db.nextRid)
    (hpre : ∀ s ∈ db.screenshots, s.sha256_hash = hash → t2 < s.expires_at)
    (hfresh : t2 < t + 60 * ttl) :
    ((db.insert_cache hash w h rd mn ttl maxr t).lookup_cache hash t2).1
      = some rd := by
  set dbE := if db.results.length ≥ maxr then db.evict_lru maxr else db
    with hdbE
  set db2 := dbE.insertScreenshot hash w h t (t + 60 * ttl) with hdb2
  set row := mkResultRow db2.nextRid (db2.findSid hash) mn rd t with hrow
  have hins : db.insert_cache hash w h rd mn ttl maxr t
      = { db2 with
          results := db2.results ++ [row]
          nextRid := db2.nextRid + 1
          elements := db2.elements
            ++ insertElemRows row.rid rd.elements db2.nextEid
          nextEid := db2.nextEid + rd.elements.length } := rfl
  have hEscr : dbE.screenshots = db.screenshots := by
    rw [hdbE]
    exact evict_step_screenshots db maxr
  have hEnr : dbE.nextRid = db.nextRid := by
    rw [hdbE]
    exact evict_step_nextRid db maxr
  have hEsub : ∀ r ∈ dbE.results, r ∈ db.results := by
    rw [hdbE]
    exact evict_step_subset db maxr
  have h2res : db2.results = dbE.results := by
    rw [hdb2]
    exact insertScreenshot_results dbE hash w h t (t + 60 * ttl)
  have h2nr : db2.nextRid = dbE.nextRid := by
    rw [hdb2]
    exact insertScreenshot_nextRid dbE hash w h t (t + 60 * ttl)
  have hlive : ∃ s0 ∈ db2.screenshots, s0.sid = db2.findSid hash
      ∧ s0.sha256_hash = hash ∧ t2 < s0.expires_at := by
    by_cases hany : dbE.screenshots.any (fun s => s.sha256_hash == hash)
    · have hdb2eq : db2 = dbE := by
        rw [hdb2]
        unfold CacheDB.insertScreenshot
        rw [if_pos hany]
      have hsome : (dbE.screenshots.find?
          (fun s => s.sha256_hash == hash)).isSome := by
        rw [List.find?_isSome]
        obtain ⟨s0, hs0mem, hs0p⟩ := List.any_eq_true.mp hany
        exact ⟨s0, hs0mem, hs0p⟩
      obtain ⟨s1, hs1⟩ := Option.isSome_iff_exists.mp hsome
      have hs1mem : s1 ∈ dbE.screenshots := List.mem_of_find?_eq_some hs1
      have hs1hash : s1.sha256_hash = hash := by
        simpa using List.find?_some hs1
      refine ⟨s1, by rw [hdb2eq]; exact hs1mem, ?_, hs1hash, ?_⟩
      · rw [hdb2eq]
        unfold CacheDB.findSid
        rw [hs1]
      · exact hpre s1 (hEscr ▸ hs1mem) hs1hash
    · have hanyF : dbE.screenshots.any
          (fun s => s.sha256_hash == hash) = false := by
        simpa using hany
      have hdb2eq : db2 = { dbE with
          screenshots := dbE.screenshots
            ++ [⟨dbE.nextSid, hash, w, h, t, t + 60 * ttl⟩]
          nextSid := dbE.nextSid + 1 } := by
        rw [hdb2]
        unfold CacheDB.insertScreenshot
        rw [if_neg (by simp [hanyF])]
      have hnone : dbE.screenshots.find?
          (fun s => s.sha256_hash == hash) = none := by
        rw [List.find?_eq_none]
        intro x hx
        have := List.any_eq_false.mp hanyF x hx
        simpa using this
      refine ⟨⟨dbE.nextSid, hash, w, h, t, t + 60 * ttl⟩, ?_, ?_, rfl, ?_⟩
      · rw [hdb2eq]
        simp
      · rw [hdb2eq]
        unfold CacheDB.findSid
        simp only [List.find?_append, hnone, Option.none_or]
        rw [List.find?_cons_of_pos _ (by simp)]
      · simpa using hfresh
  obtain ⟨s0, hs0mem, hs0sid, hs0hash, hs0exp⟩ := hlive
  have hliveRow : ∀ dbX : CacheDB, dbX.screenshots = db2.screenshots →
      dbX.liveFor hash t2 row = true := by
    intro dbX hscr
    unfold CacheDB.liveFor
    rw [hscr]
    refine List.any_eq_true.mpr ⟨s0, hs0mem, ?_⟩
    have hsid : row.screenshot_id = db2.findSid hash := by
      rw [hrow]
      rfl
    simp [hsid, hs0sid, hs0hash, hs0exp]
  have hold : ∀ y ∈ db2.results, newer row y = true := by
    intro y hy
    have hydb : y ∈ db.results := hEsub y (h2res ▸ hy)
    have h1 := hcreated y hydb
    have h2 := hbound y hydb
    have hrid : row.rid = db.nextRid := by
      rw [hrow]
      show db2.nextRid = db.nextRid
      rw [h2nr]
      exact hEnr
    have hcr : row.created_at = t := by
      rw [hrow]
      rfl
    unfold newer
    rw [hrid, hcr]
    simp only [Bool.or_eq_true, Bool.and_eq_true, decide_eq_true_eq,
      beq_iff_eq]
    omega
  rw [hins]
  unfold CacheDB.lookup_cache
  have hfilter : (db2.results ++ [row]).filter
      (CacheDB.liveFor { db2 with
          results := db2.results ++ [row]
          nextRid := db2.nextRid + 1
          elements := db2.elements
            ++ insertElemRows row.rid rd.elements db2.nextEid
          nextEid := db2.nextEid + rd.elements.length } hash t2)
      = db2.results.filter
          (CacheDB.liveFor { db2 with
              results := db2.results ++ [row]
              nextRid := db2.nextRid + 1
              elements := db2.elements
                ++ insertElemRows row.rid rd.elements db2.nextEid
              nextEid := db2.nextEid + rd.elements.length } hash t2)
          ++ [row] := by
    have hliveRowI := hliveRow
      ({ db2 with
          results := db2.results ++ [row]
          nextRid := db2.nextRid + 1
          elements := db2.elements
            ++ insertElemRows row.rid rd.elements db2.nextEid
          nextEid := db2.nextEid + rd.elements.length } : CacheDB) rfl
    rw [List.filter_append, List.filter_cons_of_pos hliveRowI]
    rfl
  rw [show ({ db2 with
      results := db2.results ++ [row]
      nextRid := db2.nextRid + 1
      elements := db2.elements
        ++ insertElemRows row.rid rd.elements db2.nextEid
      nextEid := db2.nextEid + rd.elements.length } : CacheDB).results
    = db2.results ++ [row] from rfl]
  rw [hfilter]
  rw [newestRow_append_last _ row
    (fun y hy => hold y (List.mem_of_mem_filter hy))]
  rw [hrow]
  rfl

/-- C6 (amended): a cache lookup right after a put for the same
fingerprint is a content-preserving hit — the returned Result carries
exactly the elements that were put, taken from the newest (just inserted)
result row — PROVIDED that: the manager's `ttl_seconds` is at least 60
(integer division otherwise truncates the TTL to zero minutes, see C10);
the lookup falls within the truncated TTL window after the put; any
pre-existing screenshots row for the fingerprint is still unexpired at
the lookup (`INSERT OR IGNORE` keeps the old row and its expiry); the
pre-state rows are well-formed (older than the put, rowids below the
counter); the stored elements are valid and the inference time is
non-negative; and the Result's own `expires_at` has not passed at the
lookup. -/
theorem C6_amended_lookup_after_put_preserves_elements (m : CacheManager)
    (shot : ScreenshotMeta) (r : RecognitionResult) (t t2 : Nat)
    (httl : 60 ≤ m.ttl_seconds)
    (hwithin : t2 < t + 60 * (m.ttl_seconds / 60))
    (hpre : ∀ s ∈ m.db.screenshots, s.sha256_hash = shot.hash →
      t2 < s.expires_at)
    (hcreated : ∀ row ∈ m.db.results, row.created_at ≤ t)
    (hbound : ∀ row ∈ m.db.results, row.rid < m.db.nextRid)
    (hval : ∀ e ∈ r.elements, e.validB = true)
    (hitime : 0 ≤ r.inference_time)
    (hnotexp : t2 < r.expires_at.getD (r.created_at + CACHE_TTL)) :
    ((m.put shot r t).db.lookup_cache shot.hash t2).1 = some r.to_dict
      ∧ ∃ r2, ((m.put shot r t).get shot t2).1 = some r2
          ∧ r2.elements = r.elements := by
  have hlk : ((m.put shot r t).db.lookup_cache shot.hash t2).1
      = some r.to_dict :=
    lookup_after_insert m.db shot.hash shot.width shot.height r.to_dict
      r.model_name (m.ttl_seconds / 60) m.max_size t t2 hcreated hbound
      hpre hwithin
  refine ⟨hlk, ?_⟩
  have hfd := result_roundtrip r hval hitime
  refine ⟨{ id := if r.id = "" then uuid4Model else r.id
            screenshot_hash := r.screenshot_hash
            elements := r.elements
            model_name := r.model_name
            inference_time := r.inference_time
            status := r.status
            source := r.source
            created_at := r.created_at
            expires_at := some (r.expires_at.getD (r.created_at + CACHE_TTL))
            model_version := r.model_version }, ?_, rfl⟩
  unfold CacheManager.get
  have hpair : (m.put shot r t).db.lookup_cache shot.hash t2
      = (some r.to_dict,
         ((m.put shot r t).db.lookup_cache shot.hash t2).2) := by
    rw [← hlk]
  have hexp2 : ∀ rX : RecognitionResult,
      rX.expires_at = some (r.expires_at.getD (r.created_at + CACHE_TTL)) →
      rX.is_expired t2 = false := by
    intro rX hX
    unfold RecognitionResult.is_expired
    rw [hX]
    simp only [decide_eq_false_iff_not]
    omega
  rw [hpair]
  simp only [hfd]
  rw [hexp2 _ rfl]
  simp only [Bool.false_eq_true, if_false]

/-- Witness for C6 (amended): the default-TTL manager over an empty
database, putting `resHigh` at time 0 and looking up at time 1. -/
theorem C6_amended_witness :
    ((mgr300.put shot0 resHigh 0).db.lookup_cache shot0.hash 1).1
        = some resHigh.to_dict
      ∧ ∃ r2, ((mgr300.put shot0 resHigh 0).get shot0 1).1 = some r2
          ∧ r2.elements = resHigh.elements :=
  C6_amended_lookup_after_put_preserves_elements mgr300 shot0 resHigh 0 1
    (by decide) (by decide)
    (by intro s hs; simp [mgr300, CacheDB.empty] at hs)
    (by intro row hrow; simp [mgr300, CacheDB.empty] at hrow)
    (by intro row hrow; simp [mgr300, CacheDB.empty] at hrow)
    (by intro e he; simp [resHigh] at he; rw [he]; decide)
    (by decide) (by decide)

/-- C6 counterexample: the claim says a lookup immediately after a put for
the same fingerprint is always a content-preserving hit.  With a manager
configured with `ttl_seconds = 30`, `put` converts the TTL by integer
division to `ttl_minutes = 0`, the stored entry expires at its insertion
time, and the lookup one second later is a miss. -/
theorem C6_counterexample_sub_minute_ttl_misses :
    ((mgr30.put shot0 resHigh 0).get shot0 1).1 = none := by decide

end NvdaVision
